import Mathlib

/-!
# Verification of the agent-RAG backend core

Shallow embedding of the core services of the repository
(`backend/app/services` and `backend/app/agents`) and proofs about them:

* `VectorSearchService.search` / `hybrid_search`  (services/search/vector.py)
* `HistoryManager.prepare_context` / `_truncate_history` (services/chat/history.py)
* `ChatService.add_message` / `create_branch` with `Chat.create_branch`
  (services/chat/service.py, models/domain/chat.py)
* `AgentOrchestrator.process_message` / `_execute_tool` with `ToolRegistry.get`
  (agents/orchestrator.py, agents/tools/registry.py)
* `TextChunker._chunk_fixed_size` (services/document/chunker.py)
* `VisionService.describe_images_batch` / `_parse_batch_response`
  (services/llm/vision.py)
* `sanitize_text` and the processor's chunk/summary assembly
  (services/document/processor.py)

External effects (the database engine, the model backend, the embedder) are
modelled as oracle inputs; the Python logic layered on top of them is
translated function by function.
-/

namespace RagEnv

/-! ## Vector search (services/search/vector.py)

A database row of the `chunks JOIN documents` relation as the two queries in
`VectorSearchService` see it.  `distance` is pgvector's cosine distance of the
chunk embedding to the query embedding and `tsRank` is
`ts_rank(search_vector, plainto_tsquery(query))`; both are values computed by
the database extension, so they enter the model as data carried by the row
(scores are modelled over `ℚ`).  `embeddingPresent` stands for
`Chunk.embedding IS NOT NULL`. -/

structure ChunkRow where
  chunkId : Nat
  documentId : Nat
  documentFilename : String
  content : String
  pageNumber : Option Nat
  embeddingPresent : Bool
  docDeleted : Bool
  docStatus : String
  distance : ℚ
  tsRank : ℚ
deriving Repr, DecidableEq

/-- A returned `SearchResult` (vector.py lines 28-38). -/
structure SearchResult where
  chunkId : Nat
  documentId : Nat
  documentFilename : String
  content : String
  pageNumber : Option Nat
  similarityScore : ℚ
deriving Repr, DecidableEq

/-- The WHERE clause shared by `search` and `hybrid_search`
(`Chunk.embedding.isnot(None)`, `Document.is_deleted == False`,
`Document.status == 'completed'`), together with the optional
`Chunk.document_id.in_(document_ids)` filter that is added when the
`document_ids` argument is truthy (a non-empty list). -/
def eligibleRow (documentIds : Option (List Nat)) (r : ChunkRow) : Bool :=
  r.embeddingPresent && !r.docDeleted && (r.docStatus == "completed") &&
    (match documentIds with
     | none => true
     | some ids => if ids.isEmpty then true else ids.contains r.documentId)

/-- `ORDER BY distance` ascending. -/
def byDistance (a b : ChunkRow) : Prop := a.distance ≤ b.distance

instance : DecidableRel byDistance := fun a b => inferInstanceAs (Decidable (a.distance ≤ b.distance))

instance : IsTotal ChunkRow byDistance := ⟨fun a b => le_total a.distance b.distance⟩

instance : IsTrans ChunkRow byDistance := ⟨fun _ _ _ h h' => le_trans h h'⟩

/-- The row set produced by the dense-search statement: WHERE filter,
`ORDER BY distance`, `LIMIT top_k` (vector.py lines 95-122). -/
def denseRows (db : List ChunkRow) (documentIds : Option (List Nat)) (topK : Nat) :
    List ChunkRow :=
  (((db.filter (eligibleRow documentIds)).insertionSort byDistance).take topK)

/-- `similarity = 1 - distance` (vector.py line 92). -/
def similarity (r : ChunkRow) : ℚ := 1 - r.distance

/-- Row-to-result conversion used by the dense result comprehension. -/
def mkDenseResult (r : ChunkRow) : SearchResult :=
  { chunkId := r.chunkId
    documentId := r.documentId
    documentFilename := r.documentFilename
    content := r.content
    pageNumber := r.pageNumber
    similarityScore := similarity r }

/-- `VectorSearchService.search`: fetch the dense rows, then keep those with
`row.similarity >= min_similarity` (the Python-side filter, vector.py
lines 126-138). -/
def vectorSearch (db : List ChunkRow) (documentIds : Option (List Nat))
    (topK : Nat) (minSimilarity : ℚ) : List SearchResult :=
  ((denseRows db documentIds topK).filter
      (fun r => decide (minSimilarity ≤ similarity r))).map mkDenseResult

/-- Dense search as the spec words it: candidates are similarity-filtered
first and the `top_k` cutoff is applied afterwards.  Stated only to be
compared against `vectorSearch`. -/
def specDenseSearch (db : List ChunkRow) (documentIds : Option (List Nat))
    (topK : Nat) (minSimilarity : ℚ) : List SearchResult :=
  ((((db.filter (eligibleRow documentIds)).insertionSort byDistance).filter
      (fun r => decide (minSimilarity ≤ similarity r))).take topK).map mkDenseResult

/-! ## Hybrid search (vector.py lines 205-267) -/

/-- `combined_score = vector_weight*(1-distance) + text_weight*ts_rank`
(vector.py lines 218-221). -/
def combinedScore (vw tw : ℚ) (r : ChunkRow) : ℚ :=
  vw * (1 - r.distance) + tw * r.tsRank

/-- `ORDER BY combined_score DESC`. -/
def byCombinedDesc (vw tw : ℚ) (a b : ChunkRow) : Prop :=
  combinedScore vw tw b ≤ combinedScore vw tw a

instance (vw tw : ℚ) : DecidableRel (byCombinedDesc vw tw) := fun a b =>
  inferInstanceAs (Decidable (combinedScore vw tw b ≤ combinedScore vw tw a))

instance (vw tw : ℚ) : IsTotal ChunkRow (byCombinedDesc vw tw) :=
  ⟨fun a b => (le_total (combinedScore vw tw b) (combinedScore vw tw a)).imp id id⟩

instance (vw tw : ℚ) : IsTrans ChunkRow (byCombinedDesc vw tw) :=
  ⟨fun _ _ _ h h' => le_trans h' h⟩

/-- The row set of the hybrid statement: same WHERE clause,
`ORDER BY combined_score DESC`, `LIMIT top_k`. -/
def hybridRows (db : List ChunkRow) (documentIds : Option (List Nat))
    (topK : Nat) (vw tw : ℚ) : List ChunkRow :=
  ((db.filter (eligibleRow documentIds)).insertionSort (byCombinedDesc vw tw)).take topK

/-- Hybrid rows are reported with `similarity_score = combined_score`
(vector.py line 262). -/
def mkHybridResult (vw tw : ℚ) (r : ChunkRow) : SearchResult :=
  { chunkId := r.chunkId
    documentId := r.documentId
    documentFilename := r.documentFilename
    content := r.content
    pageNumber := r.pageNumber
    similarityScore := combinedScore vw tw r }

/-- `VectorSearchService.hybrid_search`: the Python-side filter keeps rows
with `row.vector_score >= min_similarity`, i.e. the floor is tested against
`1 - distance`, not against the combined score (vector.py line 266). -/
def hybridSearch (db : List ChunkRow) (documentIds : Option (List Nat))
    (topK : Nat) (minSimilarity vw tw : ℚ) : List SearchResult :=
  ((hybridRows db documentIds topK vw tw).filter
      (fun r => decide (minSimilarity ≤ similarity r))).map (mkHybridResult vw tw)

/-! ## History manager (services/chat/history.py) -/

/-- A history entry as `prepare_context` sees it: a dict with `role` and
`content` keys. -/
structure HMsg where
  role : String
  content : String
deriving Repr, DecidableEq

/-- `HistoryManager.estimate_tokens`: `len(text) // 4`. -/
def estimateTokens (text : String) : Nat := text.length / 4

/-- `HistoryManager.estimate_history_tokens`. -/
def estimateHistoryTokens (history : List HMsg) : Nat :=
  (history.map (fun m => estimateTokens m.content)).sum

/-- Token estimate of the optional `system_context` argument
(`if system_context: total_tokens += self.estimate_tokens(system_context)`;
an empty string is falsy but also estimates to 0 tokens). -/
def ctxTokens (systemContext : Option String) : Nat :=
  match systemContext with
  | some c => estimateTokens c
  | none => 0

/-- The backwards-accumulation loop of `_truncate_history` (history.py lines
131-141): walk the reversed history, stop at the first message that would push
the running total over `available`; `truncated.insert(0, msg)` rebuilds
chronological order as a cons.  `available_tokens` is a Python `int` and can
be negative, hence `ℤ`. -/
def truncateGo (available : ℤ) : List HMsg → Nat → List HMsg → List HMsg
  | [], _, acc => acc
  | m :: rest, current, acc =>
    let t := estimateTokens m.content
    if (current + t : ℤ) > available then acc
    else truncateGo available rest (current + t) (m :: acc)

/-- `HistoryManager._truncate_history` (history.py lines 122-151). -/
def truncateHistory (maxHistoryTokens : Nat) (history : List HMsg)
    (systemContext : Option String) : List HMsg :=
  let available : ℤ := (maxHistoryTokens : ℤ) - ctxTokens systemContext
  truncateGo available history.reverse 0 []

/-- Python slice `history[:-keep_count]`: for `keep_count = 0` this is
`history[:0] = []`. -/
def oldMessages (keep : Nat) (history : List HMsg) : List HMsg :=
  if keep = 0 then [] else history.take (history.length - keep)

/-- Python slice `history[-keep_count:]`: for `keep_count = 0` this is
`history[0:]`, the whole list. -/
def recentMessages (keep : Nat) (history : List HMsg) : List HMsg :=
  if keep = 0 then history else history.drop (history.length - keep)

/-- `HistoryManager._summarize_and_truncate` (history.py lines 80-120); the
`text_service.summarize_conversation` model call is an oracle argument. -/
def summarizeAndTruncate (maxHistoryTokens summarizeThreshold : Nat)
    (summarize : List HMsg → String) (history : List HMsg)
    (systemContext : Option String) : List HMsg × Bool × Option String :=
  let keep := summarizeThreshold / 2
  let old := oldMessages keep history
  let recent := recentMessages keep history
  let summary := summarize old
  let summaryMessage : HMsg :=
    { role := "system"
      content := "[Previous conversation summary: " ++ summary ++ "]" }
  let newHistory := summaryMessage :: recent
  let total := estimateHistoryTokens newHistory + ctxTokens systemContext
  let finalHistory :=
    if total > maxHistoryTokens then
      truncateHistory maxHistoryTokens newHistory systemContext
    else newHistory
  (finalHistory, true, some summary)

/-- `HistoryManager.prepare_context` (history.py lines 48-78). -/
def prepareContext (maxHistoryTokens summarizeThreshold : Nat)
    (summarize : List HMsg → String) (history : List HMsg)
    (systemContext : Option String) : List HMsg × Bool × Option String :=
  let total := estimateHistoryTokens history + ctxTokens systemContext
  if total ≤ maxHistoryTokens then (history, false, none)
  else if history.length > summarizeThreshold then
    summarizeAndTruncate maxHistoryTokens summarizeThreshold summarize history
      systemContext
  else (truncateHistory maxHistoryTokens history systemContext, true, none)

/-- An 804-character context: 201 estimated tokens, one over a 200-token cap. -/
def bigContext : String := String.mk (List.replicate 804 'a')

/-! ## Conversation store (models/domain/chat.py, services/chat/service.py)

Rows of the `messages` table and the `Chat` record, with `created_at` order
represented by list order and ids handed out by a counter. -/

structure DMsg where
  id : Nat
  parentId : Option Nat
  branch : String
  role : String
  content : String
  isDeleted : Bool
deriving Repr, DecidableEq

/-- A value of the chat's JSONB branch table:
`{"created_at": ..., "from_message_id": ...}` (created_at omitted). -/
structure BranchInfo where
  fromMessageId : Option Nat
deriving Repr, DecidableEq

structure ChatState where
  activeBranch : String
  branches : List (String × BranchInfo)
  messages : List DMsg
  messageCount : Nat
  nextId : Nat
deriving Repr, DecidableEq

/-- A fresh chat as `ChatService.create_chat` builds it: default branch
`"main"` present in the branch table, no messages. -/
def newChat : ChatState :=
  { activeBranch := "main"
    branches := [("main", { fromMessageId := none })]
    messages := []
    messageCount := 0
    nextId := 1 }

/-- Dict update `self.branches[branch_name] = {...}`. -/
def setBranch (branches : List (String × BranchInfo)) (name : String)
    (info : BranchInfo) : List (String × BranchInfo) :=
  if (branches.lookup name).isSome then
    branches.map (fun p => if p.1 = name then (name, info) else p)
  else branches ++ [(name, info)]

/-- `Chat.create_branch` (models/domain/chat.py lines 80-94): records the
branch with its `from_message_id` in the branch table.  Nothing else: the
fork point is stored but not otherwise wired up. -/
def chatCreateBranch (st : ChatState) (name : String) (fromMessageId : Option Nat) :
    ChatState :=
  { st with branches := setBranch st.branches name { fromMessageId := fromMessageId } }

/-- `Chat.switch_branch` (models/domain/chat.py lines 96-108). -/
def chatSwitchBranch (st : ChatState) (name : String) : Except String ChatState :=
  if (st.branches.lookup name).isSome then .ok { st with activeBranch := name }
  else .error name

/-- `ChatService.create_branch` (services/chat/service.py lines 330-373):
domain `create_branch` followed by `switch_branch`. -/
def serviceCreateBranch (st : ChatState) (name : String)
    (fromMessageId : Option Nat) : Except String ChatState :=
  chatSwitchBranch (chatCreateBranch st name fromMessageId) name

/-- `ChatService.add_message` (services/chat/service.py lines 161-235): when
`parent_id` is omitted the parent defaults to the last non-deleted message of
the *active branch* (`ORDER BY created_at DESC LIMIT 1`); the branch's
recorded `from_message_id` is never consulted. -/
def addMessage (st : ChatState) (content role : String)
    (parentId : Option Nat) : ChatState × DMsg :=
  let parent : Option Nat :=
    match parentId with
    | some p => some p
    | none =>
      ((st.messages.filter
          (fun m => m.branch == st.activeBranch && !m.isDeleted)).getLast?).map
        (fun m => m.id)
  let msg : DMsg :=
    { id := st.nextId, parentId := parent, branch := st.activeBranch
      role := role, content := content, isDeleted := false }
  ({ st with
      messages := st.messages ++ [msg]
      messageCount := st.messageCount + 1
      nextId := st.nextId + 1 }, msg)

/-- `ChatService.get_conversation_history` without `message_id`: all
non-deleted messages of the requested (or active) branch in `created_at`
order (services/chat/service.py lines 274-284). -/
def getHistoryBranch (st : ChatState) (branch : Option String) : List DMsg :=
  let branchName := branch.getD st.activeBranch
  st.messages.filter (fun m => m.branch == branchName && !m.isDeleted)

/-- The spec's branching scenario: `m1..m4` on `main`, branch `alt` created
from `m2` (id 2), then `m5` added with no `parent_id`. -/
def branchScenario : Option (ChatState × DMsg) :=
  let s1 := (addMessage newChat "m1" "user" none).1
  let s2 := (addMessage s1 "m2" "assistant" none).1
  let s3 := (addMessage s2 "m3" "user" none).1
  let s4 := (addMessage s3 "m4" "assistant" none).1
  match serviceCreateBranch s4 "alt" (some 2) with
  | .ok st => some (addMessage st "m5" "user" none)
  | .error _ => none

/-! ## Agent orchestrator (agents/orchestrator.py, agents/tools/registry.py)

The LLM call plus `_parse_response` is abstracted as an oracle assigning to
each iteration the raw reply text together with its parsed `AgentThought`;
the loop logic, registry lookup and exception handling are translated from
the source.  Source records carried in `result.metadata["sources"]` are kept
opaque. -/

/-- `AgentThought` (orchestrator.py lines 26-34).  `action_input` is not
consumed by any verified path and is omitted. -/
structure AgentThought where
  thought : String
  action : Option String
  response : Option String
deriving Repr, DecidableEq

/-- `ToolResult` (agents/tools/base.py) as the loop consumes it: the
success flag, the `result` and `error` payloads rendered to strings, and
`metadata["sources"]` as an opaque list. -/
structure ToolResult where
  success : Bool
  result : String
  error : String
  metaSources : List String
deriving Repr, DecidableEq

/-- How a registered tool behaves when executed: `await tool.execute(params)`
either returns a `ToolResult` or raises. -/
inductive ToolBehavior where
  | returns (r : ToolResult)
  | raises (msg : String)
deriving Repr, DecidableEq

/-- The exceptions a dispatch can produce: `ToolNotFoundError` from
`ToolRegistry.get` (registry.py lines 67-82) or an exception escaping
`tool.execute`. -/
inductive ToolError where
  | toolNotFound (name : String) (available : List String)
  | execFailed (msg : String)
deriving Repr, DecidableEq

/-- `str(e)` for the two exception shapes; `ToolNotFoundError.__init__`
formats `f"Tool '{tool_name}' is not registered"` (exceptions.py line 242). -/
def toolErrorStr : ToolError → String
  | .toolNotFound name _ => "Tool " ++ "'" ++ name ++ "'" ++ " is not registered"
  | .execFailed msg => msg

/-- `ToolRegistry.get` (registry.py lines 67-82). -/
def registryGet (reg : List (String × ToolBehavior)) (name : String) :
    Except ToolError ToolBehavior :=
  match reg.lookup name with
  | some t => .ok t
  | none => .error (.toolNotFound name (reg.map (fun p => p.1)))

/-- `AgentOrchestrator._execute_tool` (orchestrator.py lines 294-313):
registry lookup, after which the tool runs; both failure shapes surface as
exceptions to the caller of `_execute_tool`. -/
def executeTool (reg : List (String × ToolBehavior)) (name : String) :
    Except ToolError ToolResult :=
  match registryGet reg name with
  | .error e => .error e
  | .ok (.returns r) => .ok r
  | .ok (.raises msg) => .error (.execFailed msg)

/-- `build_tool_result_prompt` (agents/prompts/system.py lines 58-70 and
157-162). -/
def buildToolResultPrompt (toolName result : String) : String :=
  "Tool " ++ "'" ++ toolName ++ "'" ++ " returned:\n\n" ++ result ++
  "\n\nBased on this information, please continue. You can:\n" ++
  "1. Use another tool if you need more information\n" ++
  "2. Respond to the user with your answer\n\n" ++
  "IMPORTANT: If you used rag_search, cite your sources using [Source N] notation in your response.\n" ++
  "For example: \"According to the documentation, the API rate limit is 100 requests per minute [Source 1].\"\n\n" ++
  "Remember to cite your sources clearly in your response."

/-- The synthetic user message appended when a dispatch raises
(orchestrator.py lines 171-175). -/
def toolFailedMessage (toolName errText : String) : String :=
  "Tool " ++ "'" ++ toolName ++ "'" ++ " failed: " ++ errText ++
  ". Please try a different approach or respond without the tool."

structure ChatMsg where
  role : String
  content : String
deriving Repr, DecidableEq

/-- Python truthiness of an optional string: `None` and `""` are falsy. -/
def pyTruthy : Option String → Bool
  | some s => !(s == "")
  | none => false

/-- Outcome of `process_message`: a normal `AgentResponse`, the
`MaxIterationsExceededError` raise, or a propagated dispatch exception.  The
last constructor exists so that propagation claims can be stated; the
translated loop is proved never to produce it. -/
inductive AgentOutcome where
  | done (response : String) (sources : List String) (iterations : Nat)
  | maxIterationsExceeded (maxIterations : Nat)
  | raised (e : ToolError)
deriving Repr, DecidableEq

/-- The body of `for iteration in range(self._max_iterations)` in
`AgentOrchestrator.process_message` (orchestrator.py lines 111-178).  `llm`
yields, per iteration, the raw reply and its parse.  The tool dispatch sits
inside `try/except Exception`, so both a `ToolNotFoundError` from the
registry and an exception from `tool.execute` land in the same handler,
which appends the previous reply as assistant plus the synthetic failure
message and keeps iterating. -/
def agentGo (reg : List (String × ToolBehavior))
    (llm : Nat → String × AgentThought) (maxIterations : Nat) :
    List Nat → List ChatMsg → List String → AgentOutcome
  | [], _, _ => .maxIterationsExceeded maxIterations
  | iteration :: rest, messages, sources =>
    let responseText := (llm iteration).1
    let thought := (llm iteration).2
    if thought.action == some "respond" || pyTruthy thought.response then
      .done (if pyTruthy thought.response then thought.response.getD responseText
             else responseText) sources (iteration + 1)
    else
      let a := thought.action.getD ""
      if a != "" && a != "respond" then
        match executeTool reg a with
        | .ok result =>
          let newSources :=
            if result.success && !result.metaSources.isEmpty then
              sources ++ result.metaSources
            else sources
          let toolMessage := buildToolResultPrompt a
            (if result.success then result.result else result.error)
          agentGo reg llm maxIterations rest
            (messages ++ [⟨"assistant", responseText⟩, ⟨"user", toolMessage⟩])
            newSources
        | .error e =>
          agentGo reg llm maxIterations rest
            (messages ++ [⟨"assistant", responseText⟩,
              ⟨"user", toolFailedMessage a (toolErrorStr e)⟩])
            sources
      else
        agentGo reg llm maxIterations rest messages sources

/-- `AgentOrchestrator.process_message` after history preparation: run the
loop on the prepared history plus the user message, with empty source and
thought accumulators. -/
def processMessage (reg : List (String × ToolBehavior))
    (llm : Nat → String × AgentThought) (maxIterations : Nat)
    (userMessage : String) (preparedHistory : List ChatMsg) : AgentOutcome :=
  agentGo reg llm maxIterations (List.range maxIterations)
    (preparedHistory ++ [⟨"user", userMessage⟩]) []

/-- A registry holding only `rag_search`, and an oracle whose first reply
dispatches the unregistered tool `web_search` and whose second replies
directly. -/
def regC3 : List (String × ToolBehavior) :=
  [("rag_search", .returns { success := true, result := "ok", error := "", metaSources := [] })]

def llmC3 : Nat → String × AgentThought
  | 0 => ("calling web_search",
      { thought := "search the web", action := some "web_search", response := none })
  | _ => ("final text",
      { thought := "answer", action := some "respond", response := some "done" })

/-! ## Sanitizer and processor assembly (services/document/processor.py) -/

/-- The character class removed by
`re.sub(r'[\x01-\x08\x0b\x0c\x0e-\x1f]', '', text)` (processor.py line 61). -/
def isRemovedCtrl (c : Char) : Bool :=
  (1 ≤ c.toNat && c.toNat ≤ 8) || c.toNat == 11 || c.toNat == 12 ||
    (14 ≤ c.toNat && c.toNat ≤ 31)

/-- `sanitize_text` (processor.py lines 38-70): empty/falsy input returns
`""`; otherwise NUL bytes are removed, then the control-character class; the
final `encode('utf-8', errors='replace').decode(...)` round-trip is the
identity here because Lean strings already consist of Unicode scalar
values. -/
def sanitizeText (text : String) : String :=
  if text == "" then ""
  else
    let noNul := text.data.filter (fun c => !(c == '\x00'))
    String.mk (noNul.filter (fun c => !(isRemovedCtrl c)))

/-- A `TextChunk` as the processor receives it from the chunker. -/
structure RawChunkData where
  chunkIndex : Nat
  pageNumber : Option Nat
  content : String
  contentType : String
deriving Repr, DecidableEq

/-- A `ProcessedChunk` ready for storage (processor.py lines 84-94). -/
structure ProcessedChunkData where
  chunkIndex : Nat
  pageNumber : Option Nat
  content : String
  contentType : String
  tokenCount : Nat
deriving Repr, DecidableEq

/-- The final chunk assembly of `process_document` (processor.py lines
222-234): every chunk content passes through `sanitize_text`; the token
count is estimated on the pre-sanitization content
(`chunk.estimate_tokens()`). -/
def assembleProcessedChunks (chunks : List RawChunkData) : List ProcessedChunkData :=
  chunks.map (fun c =>
    { chunkIndex := c.chunkIndex
      pageNumber := c.pageNumber
      content := sanitizeText c.content
      contentType := c.contentType
      tokenCount := c.content.length / 4 })

/-- The tail of `_generate_summary` (processor.py line 553):
`return sanitize_text(summary) if summary else ""`. -/
def generateSummaryText (rawSummary : String) : String :=
  if rawSummary == "" then "" else sanitizeText rawSummary

/-- The cleanliness predicate the spec asserts for persisted text: no NUL and
no control character below 0x20 other than tab, newline, carriage return. -/
def cleanText (s : String) : Prop :=
  ∀ c ∈ s.data, c.toNat ≠ 0 ∧
    (c.toNat < 32 → c.toNat = 9 ∨ c.toNat = 10 ∨ c.toNat = 13)

/-! ## Fixed-size chunker (services/document/chunker.py)

Text is a `List Char`; Python string indices are `ℤ` (the cursor arithmetic
`start = end - overlap` is signed), with slice endpoints normalized the way
Python normalizes them. -/

/-- Python slice-endpoint normalization for a sequence of length `n`. -/
def pySliceIdx (n : Nat) (i : ℤ) : Nat :=
  if i < 0 then ((n : ℤ) + i).toNat else min i.toNat n

/-- Python `text[a:b]`. -/
def pySlice (l : List Char) (a b : ℤ) : List Char :=
  (l.take (pySliceIdx l.length b)).drop (pySliceIdx l.length a)

/-- The whitespace class of `str.strip()` (ASCII part). -/
def isPySpace (c : Char) : Bool :=
  c == ' ' || c == '\t' || c == '\n' || c == '\x0d' || c == '\x0b' || c == '\x0c'

/-- Python `s.strip()`. -/
def pyStrip (l : List Char) : List Char :=
  ((l.dropWhile isPySpace).reverse.dropWhile isPySpace).reverse

/-- Python `s.rfind(sub)` for non-empty `sub`: the greatest index at which
`sub` occurs, if any (`-1` becomes `none`). -/
def rfindList (l sub : List Char) : Option Nat :=
  ((List.range (l.length + 1)).filter (fun i => sub.isPrefixOf (l.drop i))).max?

/-- The preferred sentence separators, in the order the source tries them
(chunker.py line 100). -/
def sentenceSeps : List (List Char) :=
  [['.', ' '], ['.', '\n'], ['?', ' '], ['?', '\n'], ['!', ' '], ['!', '\n']]

/-- The `for sep in [...]` loop of chunker.py lines 100-104: the first
separator in order whose `rfind` hits places the new end just past its last
occurrence, and the loop breaks. -/
def findBoundaryEnd (searchStartPos : ℤ) (searchText : List Char) :
    List (List Char) → Option ℤ
  | [] => none
  | sep :: rest =>
    match rfindList searchText sep with
    | some j => some (searchStartPos + j + sep.length)
    | none => findBoundaryEnd searchStartPos searchText rest

/-- The boundary the spec's words call for: just past the occurrence with the
greatest position among all six separators taken together.  Stated only to be
compared with `findBoundaryEnd`. -/
def specLastBreakEnd (searchStartPos : ℤ) (searchText : List Char) : Option ℤ :=
  (sentenceSeps.filterMap (fun sep =>
    (rfindList searchText sep).map (fun j => searchStartPos + j + sep.length))).max?

/-- A `TextChunk` (chunker.py lines 16-26). -/
structure TextChunkE where
  content : List Char
  chunkIndex : Nat
  pageNumber : Option Nat
  startChar : ℤ
  endChar : ℤ
  contentType : String
deriving Repr, DecidableEq

/-- Chunker configuration.  `searchBack` models `int(self.chunk_size * 0.2)`
(chunker.py line 96); it is kept as an explicit field rather than re-deriving
it from IEEE-754 arithmetic, and is instantiated consistently with the Python
value (e.g. `20` for `chunk_size = 100`). -/
structure ChunkerCfg where
  chunkSize : Nat
  chunkOverlap : Nat
  searchBack : Nat
deriving Repr, DecidableEq

structure ChunkLoopState where
  start : ℤ
  chunkIndex : Nat
  chunks : List TextChunkE
deriving Repr, DecidableEq

inductive ChunkStep where
  | continueLoop (st : ChunkLoopState)
  | halt (chunks : List TextChunkE)
deriving Repr, DecidableEq

/-- The end cursor of one pass (chunker.py lines 91-104): `end = start + S`,
pulled back to just past a found sentence boundary when `end < len(text)` and
one occurs in the trailing window `[end - searchBack, end)`. -/
def computeEnd (cfg : ChunkerCfg) (text : List Char) (start : ℤ) : ℤ :=
  let end0 : ℤ := start + cfg.chunkSize
  if end0 < (text.length : ℤ) then
    match findBoundaryEnd (end0 - cfg.searchBack)
        (pySlice text (end0 - cfg.searchBack) end0) sentenceSeps with
    | some e => e
    | none => end0
  else end0

/-- The state after one loop pass (chunker.py lines 106-120): emit the
stripped slice if non-empty, advance `start := end - overlap`. -/
def stepNext (cfg : ChunkerCfg) (text : List Char) (pageNumber : Option Nat)
    (contentType : String) (st : ChunkLoopState) : ChunkLoopState :=
  let end1 := computeEnd cfg text st.start
  let chunkText := pyStrip (pySlice text st.start end1)
  if chunkText.isEmpty then
    { start := end1 - cfg.chunkOverlap, chunkIndex := st.chunkIndex
      chunks := st.chunks }
  else
    { start := end1 - cfg.chunkOverlap, chunkIndex := st.chunkIndex + 1
      chunks := st.chunks ++
        [{ content := chunkText, chunkIndex := st.chunkIndex
           pageNumber := pageNumber, startChar := st.start, endChar := end1
           contentType := contentType }] }

/-- One pass of the `while start < len(text)` body of
`TextChunker._chunk_fixed_size` (chunker.py lines 90-122), with the
`break` once `start >= len(text) - overlap`. -/
def fixedSizeStep (cfg : ChunkerCfg) (text : List Char) (pageNumber : Option Nat)
    (contentType : String) (st : ChunkLoopState) : ChunkStep :=
  if st.start < (text.length : ℤ) then
    if (stepNext cfg text pageNumber contentType st).start ≥
        (text.length : ℤ) - cfg.chunkOverlap then
      .halt (stepNext cfg text pageNumber contentType st).chunks
    else .continueLoop (stepNext cfg text pageNumber contentType st)
  else .halt st.chunks

/-- Fuel-indexed iteration of `fixedSizeStep`; `none` means the loop has not
reached its exit condition within `fuel` passes. -/
def runFixedSize (cfg : ChunkerCfg) (text : List Char) (pageNumber : Option Nat)
    (contentType : String) : Nat → ChunkLoopState → Option (List TextChunkE)
  | 0, _ => none
  | fuel + 1, st =>
    match fixedSizeStep cfg text pageNumber contentType st with
    | .halt cs => some cs
    | .continueLoop st' => runFixedSize cfg text pageNumber contentType fuel st'

/-- `_chunk_fixed_size` from its initial state `start = 0, chunk_index = 0`. -/
def chunkFixedSize (cfg : ChunkerCfg) (text : List Char) (pageNumber : Option Nat)
    (contentType : String) (fuel : Nat) : Option (List TextChunkE) :=
  runFixedSize cfg text pageNumber contentType fuel
    { start := 0, chunkIndex := 0, chunks := [] }

/-- `chunk_size = 100, chunk_overlap = 99` (within the spec's stated ranges:
`S ∈ [100, 4000]`, `O < S`); `int(100 * 0.2) = 20`. -/
def cfgC5 : ChunkerCfg := { chunkSize := 100, chunkOverlap := 99, searchBack := 20 }

/-- 150 characters with `". "` at positions 97-98: the boundary search finds
it at window index 17, so `end = 80 + 17 + 2 = 99` and
`start = end - 99 = 0` forever. -/
def textC5 : List Char :=
  List.replicate 97 'a' ++ ['.', ' '] ++ List.replicate 51 'a'

/-- Divergence of the fixed-size chunking loop on a given configuration and
text: no amount of loop passes reaches the exit condition. -/
def chunkerDiverges (cfg : ChunkerCfg) (text : List Char) : Prop :=
  ∀ fuel : Nat, chunkFixedSize cfg text none "text" fuel = none

def cfgC6 : ChunkerCfg := { chunkSize := 100, chunkOverlap := 20, searchBack := 20 }

/-- 120 characters with `". "` at positions 80-81 and `"? "` at positions
90-91: both separators occur in the trailing window `[80, 100)`. -/
def textC6 : List Char :=
  List.replicate 80 'a' ++ ['.', ' '] ++ List.replicate 8 'a' ++ ['?', ' '] ++
    List.replicate 28 'a'

/-! ## Vision batch describer (services/llm/vision.py)

The vision model calls are oracles: `batchChat i` is the raw response (or the
exception) of the multi-image request for the `i`-th batch, and
`individual page idx` the outcome of `describe_document_image` for one
image. -/

/-- An entry of the `images` argument: `(image_bytes, page_number,
image_index)` with the bytes omitted (no verified path reads them). -/
structure ImgItem where
  page : Nat
  idx : Nat
deriving Repr, DecidableEq

/-- Recognize the regex `\[IMAGE\s*\d+\]` (case-insensitive) at the head of
the character list, returning the remainder after the match.  `\s` and `\d`
are modelled on their ASCII content, which covers the marker strings the
prompt requests. -/
def matchImageMarker (s : List Char) : Option (List Char) :=
  match s with
  | '[' :: c1 :: c2 :: c3 :: c4 :: c5 :: rest =>
    if c1.toUpper == 'I' && c2.toUpper == 'M' && c3.toUpper == 'A' &&
        c4.toUpper == 'G' && c5.toUpper == 'E' then
      let afterSpaces := rest.dropWhile isPySpace
      let digits := afterSpaces.takeWhile Char.isDigit
      match afterSpaces.dropWhile Char.isDigit with
      | ']' :: rest2 => if digits.isEmpty then none else some rest2
      | _ => none
    else none
  | _ => none

/-- `re.split(pattern, response)`: parts between marker matches, in order. -/
def splitMarkersGo : Nat → List Char → List Char → List (List Char)
  | 0, s, acc => [acc.reverse ++ s]
  | fuel + 1, s, acc =>
    match s with
    | [] => [acc.reverse]
    | c :: rest =>
      match matchImageMarker s with
      | some rem => acc.reverse :: splitMarkersGo fuel rem []
      | none => splitMarkersGo fuel rest (c :: acc)

def reSplitImageMarkers (response : List Char) : List (List Char) :=
  splitMarkersGo (response.length + 1) response []

/-- Pad with `""` while shorter than `expected_count` (vision.py lines
569-570). -/
def padTo (n : Nat) (l : List (List Char)) : List (List Char) :=
  l ++ List.replicate (n - l.length) []

/-- `VisionService._parse_batch_response` (vision.py lines 536-572): split on
`[IMAGE k]` markers, drop the preamble, strip and drop empties; when fewer
sections than expected remain, keep what parsed (or replicate the whole
stripped response when nothing did) and pad with empty strings. -/
def parseBatchResponse (response : String) (expectedCount : Nat) : List String :=
  let parts := reSplitImageMarkers response.data
  let descParts := ((parts.drop 1).map pyStrip).filter (fun p => !p.isEmpty)
  let descriptions :=
    if expectedCount ≤ descParts.length then descParts.take expectedCount
    else if !descParts.isEmpty then descParts
    else List.replicate expectedCount (pyStrip response.data)
  (padTo expectedCount descriptions).map String.mk

/-- `_process_image_batch` after the model call: parse the response and zip
the descriptions with `(page_number, image_index)` (vision.py lines
520-534). -/
def processImageBatch (resp : String) (batch : List ImgItem) :
    List (Nat × Nat × String) :=
  (batch.zip (parseBatchResponse resp batch.length)).map
    (fun p => (p.1.page, p.1.idx, p.2))

/-- `for i in range(0, len(images), batch_size)` grouping, `batch_size ≥ 1`
(fuel-based recursion on suffix length). -/
def toBatchesGo (bs : Nat) : Nat → List ImgItem → List (List ImgItem)
  | _, [] => []
  | 0, l => [l]
  | fuel + 1, l => l.take bs :: toBatchesGo bs fuel (l.drop bs)

def toBatches (bs : Nat) (l : List ImgItem) : List (List ImgItem) :=
  toBatchesGo bs l.length l

/-- The per-batch body of `describe_images_batch` (vision.py lines 429-449):
a successful batch call contributes the parsed-and-zipped results; only an
exception from the batch call triggers the per-image fallback, in which an
individual failure contributes an empty description. -/
def describeImagesBatchGo (batchChat : Nat → Except Unit String)
    (individual : Nat → Nat → Except Unit String) :
    Nat → List (List ImgItem) → List (Nat × Nat × String)
  | _, [] => []
  | bi, batch :: rest =>
    let results :=
      match batchChat bi with
      | .ok resp => processImageBatch resp batch
      | .error _ =>
        batch.map (fun im =>
          match individual im.page im.idx with
          | .ok desc => (im.page, im.idx, desc)
          | .error _ => (im.page, im.idx, ""))
    results ++ describeImagesBatchGo batchChat individual (bi + 1) rest

/-- `VisionService.describe_images_batch` (vision.py lines 406-451). -/
def describeImagesBatch (batchChat : Nat → Except Unit String)
    (individual : Nat → Nat → Except Unit String) (images : List ImgItem)
    (batchSize : Nat) : List (Nat × Nat × String) :=
  describeImagesBatchGo batchChat individual 0 (toBatches batchSize images)

/-- Two images on page 1; the batch response contains a single
`[IMAGE 1]` section, one fewer than requested. -/
def imagesC7 : List ImgItem := [{ page := 1, idx := 1 }, { page := 1, idx := 2 }]

def batchChatC7 : Nat → Except Unit String :=
  fun _ => .ok "[IMAGE 1]\nsection one"

/-- An individual-description oracle that would be observable if the claimed
per-image fallback ran. -/
def individualC7 : Nat → Nat → Except Unit String :=
  fun _ _ => .ok "SENTINEL"

/-! Ordering helper lemmas. -/

/-- On a list sorted by `r`, filtering by a predicate that is downward closed
along `r` commutes with `take`. -/
theorem take_filter_comm {α : Type} (r : α → α → Prop) (p : α → Bool)
    (hp : ∀ a b, r a b → p b = true → p a = true) :
    ∀ (l : List α) (k : Nat), l.Sorted r →
      (l.take k).filter p = (l.filter p).take k := by
  intro l
  induction l with
  | nil => intro k _; simp
  | cons a t ih =>
    intro k hs
    have hrel : ∀ x ∈ t, r a x := List.rel_of_sorted_cons hs
    have hst : t.Sorted r := hs.of_cons
    cases hpa : p a with
    | false =>
      have hnone : ∀ x ∈ t, ¬ p x = true := by
        intro x hx hpx
        have := hp a x (hrel x hx) hpx
        rw [hpa] at this
        exact Bool.false_ne_true this
      have htf : t.filter p = [] := List.filter_eq_nil_iff.mpr hnone
      cases k with
      | zero => simp
      | succ k =>
        have htkf : (t.take k).filter p = [] := by
          apply List.filter_eq_nil_iff.mpr
          intro x hx
          exact hnone x (List.take_subset k t hx)
        simp [List.filter_cons, hpa, htf, htkf]
    | true =>
      cases k with
      | zero => simp
      | succ k =>
        simp [List.filter_cons, hpa, ih k hst]

theorem length_filter_of_perm {α : Type} {l l' : List α} (p : α → Bool)
    (h : l.Perm l') : (l.filter p).length = (l'.filter p).length :=
  (h.filter p).length_eq

/-- The similarity floor `min_similarity ≤ 1 - distance` is downward closed
along ascending distance. -/
theorem floor_downward (m : ℚ) : ∀ a b : ChunkRow, byDistance a b →
    decide (m ≤ similarity b) = true → decide (m ≤ similarity a) = true := by
  intro a b hab hb
  have hb' : m ≤ similarity b := of_decide_eq_true hb
  have : similarity b ≤ similarity a := by
    unfold similarity
    unfold byDistance at hab
    linarith
  exact decide_eq_true (le_trans hb' this)

/-- Sample rows used for concrete evaluations: the hybrid-ordering scenario of
the spec, with vector similarities 0.9 / 0.6 / 0.8 (so cosine distances
0.1 / 0.4 / 0.2) and text ranks 0.0 / 0.9 / 0.2. -/
def rowA : ChunkRow :=
  { chunkId := 1, documentId := 10, documentFilename := "a.pdf", content := "A"
    pageNumber := some 1, embeddingPresent := true, docDeleted := false
    docStatus := "completed", distance := 1/10, tsRank := 0 }

def rowB : ChunkRow :=
  { chunkId := 2, documentId := 10, documentFilename := "a.pdf", content := "B"
    pageNumber := some 2, embeddingPresent := true, docDeleted := false
    docStatus := "completed", distance := 4/10, tsRank := 9/10 }

def rowC : ChunkRow :=
  { chunkId := 3, documentId := 10, documentFilename := "a.pdf", content := "C"
    pageNumber := some 3, embeddingPresent := true, docDeleted := false
    docStatus := "completed", distance := 2/10, tsRank := 2/10 }

def exampleDb : List ChunkRow := [rowA, rowB, rowC]

/-- C1: For every dense search call, the returned results are exactly the
candidate chunks (non-deleted, Completed document, non-null embedding, and
passing the optional document filter) whose similarity `1 - distance` is at
least `min_similarity`, ordered by ascending cosine distance (descending
similarity); the `top_k` cutoff is applied after the similarity filtering, so
whenever at least `top_k` candidates pass the floor, exactly `top_k` results
are returned.  The SQL statement applies `LIMIT top_k` before the Python-side
similarity filter, but because the rows are ordered by the same distance the
floor tests, the two orders of operations agree. -/
theorem dense_search_filter_then_cutoff (db : List ChunkRow)
    (ids : Option (List Nat)) (topK : Nat) (m : ℚ) :
    vectorSearch db ids topK m = specDenseSearch db ids topK m ∧
    (vectorSearch db ids topK m).Pairwise
      (fun x y => y.similarityScore ≤ x.similarityScore) ∧
    (topK ≤ ((db.filter (eligibleRow ids)).filter
        (fun r => decide (m ≤ similarity r))).length →
      (vectorSearch db ids topK m).length = topK) := by
  have hsorted : ((db.filter (eligibleRow ids)).insertionSort byDistance).Sorted byDistance :=
    List.sorted_insertionSort byDistance _
  have hcomm := take_filter_comm byDistance
      (fun r => decide (m ≤ similarity r)) (floor_downward m)
      ((db.filter (eligibleRow ids)).insertionSort byDistance) topK hsorted
  refine ⟨?_, ?_, ?_⟩
  · unfold vectorSearch specDenseSearch denseRows
    rw [hcomm]
  · unfold vectorSearch denseRows
    rw [List.pairwise_map]
    have h1 : (((db.filter (eligibleRow ids)).insertionSort byDistance).take topK).Pairwise
        byDistance :=
      hsorted.sublist (List.take_sublist topK _)
    have h2 := h1.filter (fun r => decide (m ≤ similarity r))
    refine h2.imp ?_
    intro a b hab
    unfold byDistance at hab
    show similarity b ≤ similarity a
    unfold similarity
    linarith
  · intro hk
    unfold vectorSearch denseRows
    rw [List.length_map, hcomm, List.length_take]
    have hperm : ((db.filter (eligibleRow ids)).insertionSort byDistance).Perm
        (db.filter (eligibleRow ids)) :=
      List.perm_insertionSort byDistance _
    rw [length_filter_of_perm _ hperm]
    exact Nat.min_eq_left hk

/-- Witness for C1 at a concrete database: with the three sample rows,
`top_k = 2` and floor `0.3`, all three candidates pass the floor, so exactly
two results come back. -/
theorem dense_search_filter_then_cutoff_witness :
    (vectorSearch exampleDb none 2 (3/10)).length = 2 :=
  (dense_search_filter_then_cutoff exampleDb none 2 (3/10)).2.2
    (by norm_num [exampleDb, rowA, rowB, rowC, eligibleRow, similarity])

/-- C8: Hybrid search ranks candidates by
`vector_weight*(1-distance) + text_weight*ts_rank` and applies the
`min_similarity` floor to the vector component `1-distance` alone.  Every
returned result arises from an eligible row passing the vector floor, results
are ordered by descending combined score, and on the spec's example
(`A`: vector 0.9 / text 0.0, `B`: 0.6 / 0.9, `C`: 0.8 / 0.2, weights 0.7/0.3)
the order is `B (0.69), A (0.63), C (0.62)`; raising `min_similarity` to 0.7
filters `B` (vector component 0.6) leaving `A, C`, even though every combined
score, including the survivors' 0.63 and 0.62, is below 0.7. -/
theorem hybrid_search_weighted_rank (db : List ChunkRow)
    (ids : Option (List Nat)) (topK : Nat) (m vw tw : ℚ) :
    (∀ res ∈ hybridSearch db ids topK m vw tw,
      ∃ r ∈ db, eligibleRow ids r = true ∧ m ≤ similarity r ∧
        res = mkHybridResult vw tw r ∧ res.similarityScore = combinedScore vw tw r) ∧
    (hybridSearch db ids topK m vw tw).Pairwise
      (fun x y => y.similarityScore ≤ x.similarityScore) ∧
    ((hybridSearch exampleDb none 5 (3/10) (7/10) (3/10)).map
        (fun res => (res.chunkId, res.similarityScore)) =
      [(2, 69/100), (1, 63/100), (3, 62/100)] ∧
     (hybridSearch exampleDb none 5 (7/10) (7/10) (3/10)).map
        (fun res => (res.chunkId, res.similarityScore)) =
      [(1, 63/100), (3, 62/100)]) := by
  refine ⟨?_, ?_,
    by norm_num [hybridSearch, hybridRows, exampleDb, rowA, rowB, rowC, eligibleRow,
      similarity, combinedScore, mkHybridResult, byCombinedDesc,
      List.insertionSort, List.orderedInsert],
    by norm_num [hybridSearch, hybridRows, exampleDb, rowA, rowB, rowC, eligibleRow,
      similarity, combinedScore, mkHybridResult, byCombinedDesc,
      List.insertionSort, List.orderedInsert]⟩
  · intro res hres
    unfold hybridSearch at hres
    obtain ⟨r, hrmem, rfl⟩ := List.mem_map.mp hres
    have hrf := List.mem_filter.mp hrmem
    have hrrows : r ∈ hybridRows db ids topK vw tw := hrf.1
    have hpass : m ≤ similarity r := of_decide_eq_true hrf.2
    unfold hybridRows at hrrows
    have hrsort := List.take_subset topK _ hrrows
    have hrmem' : r ∈ db.filter (eligibleRow ids) :=
      (List.perm_insertionSort (byCombinedDesc vw tw) _).subset hrsort
    have hrdb := List.mem_filter.mp hrmem'
    exact ⟨r, hrdb.1, hrdb.2, hpass, rfl, rfl⟩
  · unfold hybridSearch hybridRows
    rw [List.pairwise_map]
    have hsorted := List.sorted_insertionSort (byCombinedDesc vw tw)
      (db.filter (eligibleRow ids))
    have h1 := hsorted.sublist (List.take_sublist topK _)
    have h2 := h1.filter (fun r => decide (m ≤ similarity r))
    refine h2.imp ?_
    intro a b hab
    exact hab

/-! ## History manager theorems -/

/-- Accumulation invariant of the truncation loop: if the running total is
within budget and matches the accumulator, the final accumulator is within
budget. -/
theorem truncateGo_tokens_le (av : ℤ) :
    ∀ (l : List HMsg) (cur : Nat) (acc : List HMsg),
      (cur : ℤ) ≤ av → estimateHistoryTokens acc = cur →
      (estimateHistoryTokens (truncateGo av l cur acc) : ℤ) ≤ av := by
  intro l
  induction l with
  | nil =>
    intro cur acc hle hacc
    simpa [truncateGo, hacc] using hle
  | cons m rest ih =>
    intro cur acc hle hacc
    by_cases h : ((cur : ℤ) + estimateTokens m.content > av)
    · simpa [truncateGo, h, hacc] using hle
    · push_neg at h
      have : truncateGo av (m :: rest) cur acc =
          truncateGo av rest (cur + estimateTokens m.content) (m :: acc) := by
        simp only [truncateGo]
        rw [if_neg]
        push_neg
        exact_mod_cast h
      rw [this]
      apply ih
      · exact_mod_cast h
      · simp only [estimateHistoryTokens, List.map_cons, List.sum_cons] at hacc ⊢
        omega

/-- `_truncate_history` respects the budget whenever the context alone fits
into it. -/
theorem truncateHistory_tokens_le (maxT : Nat) (history : List HMsg)
    (ctx : Option String) (hctx : ctxTokens ctx ≤ maxT) :
    estimateHistoryTokens (truncateHistory maxT history ctx) + ctxTokens ctx ≤ maxT := by
  have h := truncateGo_tokens_le ((maxT : ℤ) - ctxTokens ctx) history.reverse 0 []
    (by omega) (by simp [estimateHistoryTokens])
  have heq : truncateHistory maxT history ctx =
      truncateGo ((maxT : ℤ) - ctxTokens ctx) history.reverse 0 [] := rfl
  rw [heq]
  omega

/-- C4 (amended): whenever the History Manager does not take the
return-unchanged branch (the estimated tokens of history plus context exceed
the cap) *and the system context alone fits into the cap*, the returned
history `H'` satisfies `tokens(H') + tokens(context) ≤ MAX_HISTORY_TOKENS`,
for both the summarize-and-keep-recent branch and the backwards-truncation
branch.  Without the context-fits proviso the bound fails
(`prepare_context_overflowing_context`). -/
theorem prepare_context_budget (maxT thr : Nat) (summarize : List HMsg → String)
    (history : List HMsg) (ctx : Option String)
    (hrun : maxT < estimateHistoryTokens history + ctxTokens ctx)
    (hctx : ctxTokens ctx ≤ maxT) :
    estimateHistoryTokens
        (prepareContext maxT thr summarize history ctx).1 + ctxTokens ctx ≤ maxT := by
  unfold prepareContext
  rw [if_neg (by omega)]
  by_cases hlen : history.length > thr
  · rw [if_pos hlen]
    unfold summarizeAndTruncate
    set newHistory : List HMsg :=
      { role := "system"
        content := "[Previous conversation summary: " ++
          summarize (oldMessages (thr / 2) history) ++ "]" } ::
        recentMessages (thr / 2) history with hnew
    by_cases hover : estimateHistoryTokens newHistory + ctxTokens ctx > maxT
    · simp only [← hnew, if_pos hover]
      exact truncateHistory_tokens_le maxT newHistory ctx hctx
    · simp only [← hnew, if_neg hover]
      omega
  · rw [if_neg hlen]
    exact truncateHistory_tokens_le maxT history ctx hctx

set_option maxRecDepth 8000 in
/-- Witness for C4 (amended) at a concrete overflowing history: cap 200,
threshold 6, a 900-character message and a 100-character context. -/
theorem prepare_context_budget_witness :
    estimateHistoryTokens
        (prepareContext 200 6 (fun _ => "")
          [{ role := "user", content := String.mk (List.replicate 900 'a') }]
          (some (String.mk (List.replicate 100 'b')))).1 +
      ctxTokens (some (String.mk (List.replicate 100 'b'))) ≤ 200 :=
  prepare_context_budget 200 6 (fun _ => "")
    [{ role := "user", content := String.mk (List.replicate 900 'a') }]
    (some (String.mk (List.replicate 100 'b')))
    (by decide) (by decide)

set_option maxRecDepth 8000 in
/-- C4 counterexample: with cap 200 and an 804-character (201-token) context,
a one-message history forces the truncation branch (`was_truncated = true`),
which returns the empty history, yet
`tokens([]) + tokens(context) = 201 > 200`: the claimed bound fails for
contexts that alone exceed the cap. -/
theorem prepare_context_overflowing_context :
    prepareContext 200 6 (fun _ => "")
        [{ role := "user", content := "hi" }] (some bigContext) =
      ([], true, none) ∧
    ¬ (estimateHistoryTokens
          (prepareContext 200 6 (fun _ => "")
            [{ role := "user", content := "hi" }] (some bigContext)).1 +
        ctxTokens (some bigContext) ≤ 200) := by
  constructor
  · decide
  · decide

/-- C10: in the truncation path, if the newest message alone exceeds the
available budget (`MAX_HISTORY_TOKENS` minus the context's tokens), the
returned history is empty regardless of the older messages: the backwards
accumulation breaks at the first overflowing message, dropping everything
older, including messages that would individually fit. -/
theorem truncate_overflowing_newest_empties (maxT : Nat) (older : List HMsg)
    (newest : HMsg) (ctx : Option String)
    (h : (maxT : ℤ) - ctxTokens ctx < (estimateTokens newest.content : ℤ)) :
    truncateHistory maxT (older ++ [newest]) ctx = [] := by
  unfold truncateHistory
  rw [List.reverse_append]
  simp only [List.reverse_singleton, List.singleton_append, truncateGo]
  rw [if_pos]
  omega

/-- Witness for C10: cap 10, no context, a 44-character newest message (11
tokens) behind a 4-character message (1 token, individually fitting): the
prepared history is empty. -/
theorem truncate_overflowing_newest_empties_witness :
    truncateHistory 10
        ([{ role := "user", content := "abcd" }] ++
          [{ role := "user", content := String.mk (List.replicate 44 'x') }])
        none = [] :=
  truncate_overflowing_newest_empties 10 [{ role := "user", content := "abcd" }]
    { role := "user", content := String.mk (List.replicate 44 'x') } none
    (by decide)

/-! ## Conversation store theorem -/

/-- C2: in the spec's branching scenario (messages `m1..m4` on `main`, branch
`alt` created from `m2` with the fork point recorded, then `m5` added with no
`parent_id`), the code gives `m5.parent_id = None` — not `m2.id` — because
`add_message` defaults the parent to the last message of the now-active (and
empty) branch `alt` and never consults the branch's stored
`from_message_id`; consequently `GetHistory(branch="alt")` returns `[m5]`
rather than `[m1, m2, m5]`. -/
theorem branch_fork_parent_ignored :
    (branchScenario.map (fun p => (p.2.parentId, p.2.branch))) =
      some (none, "alt") ∧
    (branchScenario.map (fun p =>
      (getHistoryBranch p.1 (some "alt")).map (fun m => m.id))) = some [5] ∧
    (branchScenario.map (fun p => p.2.parentId)) ≠ some (some 2) := by
  refine ⟨by decide, by decide, by decide⟩

/-! ## Agent orchestrator theorems -/

/-- C3 (amended): in `process_message` the whole dispatch — including the
registry lookup — runs inside `try/except Exception`, so a missing tool is
handled exactly like a registered tool's execution failure: the turn does not
terminate; the orchestrator appends the previous model reply as an assistant
message plus the synthetic user message
`Tool <name> failed: <err>. Please try a different approach or respond
without the tool.` and keeps iterating.  In particular `ToolNotFound` is
never raised to the orchestrator's caller. -/
theorem tool_errors_never_escape (reg : List (String × ToolBehavior))
    (llm : Nat → String × AgentThought) (maxIterations : Nat) :
    (∀ (iteration : Nat) (rest : List Nat) (messages : List ChatMsg)
        (sources : List String) (a : String) (e : ToolError),
      (llm iteration).2.action = some a → a ≠ "" → a ≠ "respond" →
      pyTruthy (llm iteration).2.response = false →
      executeTool reg a = .error e →
      agentGo reg llm maxIterations (iteration :: rest) messages sources =
        agentGo reg llm maxIterations rest
          (messages ++ [⟨"assistant", (llm iteration).1⟩,
            ⟨"user", toolFailedMessage a (toolErrorStr e)⟩]) sources) ∧
    (∀ (iters : List Nat) (messages : List ChatMsg) (sources : List String)
        (e : ToolError),
      agentGo reg llm maxIterations iters messages sources ≠ .raised e) := by
  constructor
  · intro iteration rest messages sources a e hact hne hnr hresp hexec
    simp only [agentGo, hact, hresp]
    have hbeq : (some a == some "respond") = false := by
      simp [hne, hnr]
    rw [hbeq]
    simp only [Bool.false_or, Bool.or_self, if_neg Bool.false_ne_true]
    have ha' : (a != "") = true := by simp [hne]
    have ha'' : (a != "respond") = true := by simp [hnr]
    simp only [Option.getD_some, ha', ha'', Bool.and_self, hexec, if_true]
  · intro iters
    induction iters with
    | nil =>
      intro messages sources e
      simp [agentGo]
    | cons i rest ih =>
      intro messages sources e
      simp only [agentGo]
      by_cases h1 : ((llm i).2.action == some "respond" ||
          pyTruthy (llm i).2.response) = true
      · rw [if_pos h1]
        simp
      · rw [if_neg h1]
        by_cases h2 : (((llm i).2.action.getD "" != "") &&
            ((llm i).2.action.getD "" != "respond")) = true
        · rw [if_pos h2]
          cases hexec : executeTool reg ((llm i).2.action.getD "") with
          | ok r => exact ih _ _ e
          | error e' => exact ih _ _ e
        · rw [if_neg h2]
          exact ih _ _ e

/-- Witness for C3 (amended): the first iteration of the concrete scenario —
an unregistered `web_search` dispatch — reduces to the loop continuing on the
extended transcript. -/
theorem tool_errors_never_escape_witness :
    agentGo regC3 llmC3 5 (0 :: [1, 2, 3, 4]) [⟨"user", "question"⟩] [] =
      agentGo regC3 llmC3 5 [1, 2, 3, 4]
        ([⟨"user", "question"⟩] ++ [⟨"assistant", "calling web_search"⟩,
          ⟨"user", toolFailedMessage "web_search"
            (toolErrorStr (.toolNotFound "web_search" ["rag_search"]))⟩]) [] :=
  (tool_errors_never_escape regC3 llmC3 5).1 0 [1, 2, 3, 4]
    [⟨"user", "question"⟩] [] "web_search"
    (.toolNotFound "web_search" ["rag_search"])
    rfl (by decide) (by decide) rfl rfl

/-- C3 counterexample: with only `rag_search` registered and a model whose
first action names the unregistered `web_search`, the turn is not terminated
by `ToolNotFound`: the loop continues and ends normally on the next
iteration's direct response. -/
theorem missing_tool_does_not_escape :
    processMessage regC3 llmC3 5 "question" [] = .done "done" [] 2 ∧
    processMessage regC3 llmC3 5 "question" [] ≠
      .raised (.toolNotFound "web_search" ["rag_search"]) := by
  refine ⟨by decide, by decide⟩

/-! ## Sanitizer theorems -/

/-- Core property of `sanitize_text`: its output never contains NUL and never
contains a control character below 0x20 other than tab, newline and carriage
return. -/
theorem sanitizeText_clean (s : String) : cleanText (sanitizeText s) := by
  intro c hc
  unfold sanitizeText at hc
  by_cases hs : (s == "") = true
  · rw [if_pos hs] at hc
    simp at hc
  · rw [if_neg hs] at hc
    have hc' : c ∈ (s.data.filter (fun c => !(c == '\x00'))).filter
        (fun c => !(isRemovedCtrl c)) := hc
    obtain ⟨hmem0, h1⟩ := List.mem_filter.mp hc'
    have h0 : (!(c == '\x00')) = true := (List.mem_filter.mp hmem0).2
    constructor
    · intro hzero
      have : c = '\x00' := by
        apply Char.ext
        apply UInt32.ext
        simpa [Char.toNat] using hzero
      simp [this] at h0
    · intro hlt
      have h' : ¬ (isRemovedCtrl c = true) := by simp_all
      simp only [isRemovedCtrl, Bool.or_eq_true, Bool.and_eq_true,
        decide_eq_true_eq, beq_iff_eq] at h'
      have hzero : c.toNat ≠ 0 := by
        intro hz
        have : c = '\x00' := by
          apply Char.ext
          apply UInt32.ext
          simpa [Char.toNat] using hz
        simp [this] at h0
      omega

/-- C9: every chunk content and the document summary assembled by the
Processor pass through `sanitize_text` before persistence, and for every
input string the sanitizer's output contains no NUL byte and no control
character below 0x20 outside tab, newline and carriage return (it removes
0x00, 0x01-0x08, 0x0B, 0x0C, 0x0E-0x1F and re-encodes to valid UTF-8, the
identity on already-valid scalar strings). -/
theorem processor_persists_sanitized_text :
    (∀ s : String, cleanText (sanitizeText s)) ∧
    (∀ (chunks : List RawChunkData),
      ∀ pc ∈ assembleProcessedChunks chunks, cleanText pc.content) ∧
    (∀ rawSummary : String, cleanText (generateSummaryText rawSummary)) := by
  refine ⟨sanitizeText_clean, ?_, ?_⟩
  · intro chunks pc hpc
    unfold assembleProcessedChunks at hpc
    obtain ⟨c, _, rfl⟩ := List.mem_map.mp hpc
    exact sanitizeText_clean c.content
  · intro rawSummary
    unfold generateSummaryText
    by_cases h : (rawSummary == "") = true
    · rw [if_pos h]
      intro c hc
      simp at hc
    · rw [if_neg h]
      exact sanitizeText_clean rawSummary

/-- Witness for C9 at a concrete input: sanitizing `"a\x00\x01b"` keeps `'a'`,
which is neither NUL nor a stripped control character. -/
theorem processor_persists_sanitized_text_witness :
    'a'.toNat ≠ 0 ∧
    ('a'.toNat < 32 → 'a'.toNat = 9 ∨ 'a'.toNat = 10 ∨ 'a'.toNat = 13) :=
  processor_persists_sanitized_text.1 "a\x00\x01b" 'a' (by decide)

/-! ## Chunker theorems -/

set_option maxRecDepth 40000 in
/-- In the C5 text the boundary search of the window `[0, 100)` lands just
past the `". "` at positions 97-98: the new end is 99. -/
theorem c5_boundary_eval :
    findBoundaryEnd (80 : ℤ) (pySlice textC5 80 100) sentenceSeps = some 99 := by
  decide

set_option maxRecDepth 40000 in
theorem c5_len_eval : textC5.length = 150 := by decide

set_option maxRecDepth 40000 in
theorem c5_strip_eval : (pyStrip (pySlice textC5 0 99)).isEmpty = false := by
  decide

set_option maxRecDepth 100000 in
/-- With `S = 100, O = 99` the loop body maps `start = 0` back to
`start = 99 - 99 = 0`: the state repeats (modulo the ever-growing chunk
list). -/
theorem c5_step_repeats (i : Nat) (cs : List TextChunkE) :
    fixedSizeStep cfgC5 textC5 none "text" ⟨0, i, cs⟩ =
      .continueLoop ⟨0, i + 1, cs ++
        [{ content := pyStrip (pySlice textC5 0 99), chunkIndex := i
           pageNumber := none, startChar := 0, endChar := 99
           contentType := "text" }]⟩ := by
  simp only [fixedSizeStep, stepNext, computeEnd, cfgC5, c5_len_eval]
  norm_num [c5_boundary_eval, c5_strip_eval]

theorem c5_run_none : ∀ (fuel i : Nat) (cs : List TextChunkE),
    runFixedSize cfgC5 textC5 none "text" fuel ⟨0, i, cs⟩ = none := by
  intro fuel
  induction fuel with
  | zero => intro i cs; rfl
  | succ n ih =>
    intro i cs
    simp only [runFixedSize, c5_step_repeats]
    exact ih (i + 1) _

/-- C5 counterexample: the claim asserts termination for every
`S ∈ [100, 4000]`, `O < S`; but for `S = 100, O = 99` and a 150-character
text with `". "` at positions 97-98, the exit condition is never reached —
no amount of loop iterations finishes (`start` returns to 0 every pass). -/
theorem chunker_nonterminating_config : chunkerDiverges cfgC5 textC5 :=
  fun fuel => c5_run_none fuel 0 []

/-- Every preferred separator has length 2, so any boundary the search
returns lies at least two characters past the window start. -/
theorem findBoundaryEnd_lower (ss : ℤ) (s : List Char) :
    ∀ (seps : List (List Char)), (∀ sep ∈ seps, sep.length = 2) →
      ∀ e, findBoundaryEnd ss s seps = some e → ss + 2 ≤ e := by
  intro seps
  induction seps with
  | nil => intro _ e h; simp [findBoundaryEnd] at h
  | cons sep rest ih =>
    intro hall e h
    simp only [findBoundaryEnd] at h
    cases hr : rfindList s sep with
    | some j =>
      rw [hr] at h
      have he : ss + j + sep.length = e := by
        simpa using h
      have h2 : sep.length = 2 := hall sep (List.mem_cons_self sep rest)
      rw [h2] at he
      omega
    | none =>
      rw [hr] at h
      exact ih (fun p hp => hall p (List.mem_cons_of_mem sep hp)) e h

/-- Every separator the source tries has length 2. -/
theorem sentenceSeps_length : ∀ sep ∈ sentenceSeps, sep.length = 2 := by
  intro sep hsep
  fin_cases hsep <;> rfl

/-- With overlap below the chunk size and `overlap + searchBack < size + 2`,
the computed end always lies more than `overlap` past the current start. -/
theorem computeEnd_lower (cfg : ChunkerCfg) (text : List Char) (start : ℤ)
    (hO : cfg.chunkOverlap < cfg.chunkSize)
    (hOB : cfg.chunkOverlap + cfg.searchBack < cfg.chunkSize + 2) :
    start + cfg.chunkOverlap + 1 ≤ computeEnd cfg text start := by
  unfold computeEnd
  simp only []
  split
  · cases hb : findBoundaryEnd (start + cfg.chunkSize - cfg.searchBack)
        (pySlice text (start + cfg.chunkSize - cfg.searchBack)
          (start + cfg.chunkSize)) sentenceSeps with
    | some e =>
      have hlow := findBoundaryEnd_lower (start + cfg.chunkSize - cfg.searchBack)
        _ sentenceSeps sentenceSeps_length e hb
      show start + (cfg.chunkOverlap : ℤ) + 1 ≤ e
      omega
    | none =>
      show start + (cfg.chunkOverlap : ℤ) + 1 ≤ start + cfg.chunkSize
      omega
  · omega

/-- The advanced start of one pass is `computeEnd - overlap`, whether or not
a chunk was emitted. -/
theorem stepNext_start (cfg : ChunkerCfg) (text : List Char)
    (pageNumber : Option Nat) (contentType : String) (st : ChunkLoopState) :
    (stepNext cfg text pageNumber contentType st).start =
      computeEnd cfg text st.start - cfg.chunkOverlap := by
  unfold stepNext
  simp only []
  split <;> rfl

/-- A pass that continues the loop strictly advances the start cursor and
leaves it below `len(text) - overlap`. -/
theorem fixedSizeStep_continue (cfg : ChunkerCfg) (text : List Char)
    (pageNumber : Option Nat) (contentType : String) (st st' : ChunkLoopState)
    (hO : cfg.chunkOverlap < cfg.chunkSize)
    (hOB : cfg.chunkOverlap + cfg.searchBack < cfg.chunkSize + 2)
    (h : fixedSizeStep cfg text pageNumber contentType st = .continueLoop st') :
    st.start + 1 ≤ st'.start ∧ st'.start < (text.length : ℤ) - cfg.chunkOverlap := by
  unfold fixedSizeStep at h
  by_cases h1 : st.start < (text.length : ℤ)
  case neg =>
    rw [if_neg h1] at h
    exact absurd h (by simp)
  rw [if_pos h1] at h
  by_cases h2 : (stepNext cfg text pageNumber contentType st).start ≥
      (text.length : ℤ) - cfg.chunkOverlap
  · rw [if_pos h2] at h
    exact absurd h (by simp)
  · rw [if_neg h2] at h
    have hst : st' = stepNext cfg text pageNumber contentType st := by
      injection h with h'
      exact h'.symm
    subst hst
    rw [stepNext_start] at h2 ⊢
    have hce := computeEnd_lower cfg text st.start hO hOB
    constructor
    · omega
    · omega

/-- Enough fuel always suffices: the loop reaches its exit within
`len(text) - overlap - start` passes once every pass strictly advances. -/
theorem runFixedSize_terminates (cfg : ChunkerCfg) (text : List Char)
    (pageNumber : Option Nat) (contentType : String)
    (hO : cfg.chunkOverlap < cfg.chunkSize)
    (hOB : cfg.chunkOverlap + cfg.searchBack < cfg.chunkSize + 2) :
    ∀ (fuel : Nat) (st : ChunkLoopState),
      ((text.length : ℤ) - cfg.chunkOverlap - st.start).toNat < fuel →
      (runFixedSize cfg text pageNumber contentType fuel st).isSome := by
  intro fuel
  induction fuel with
  | zero =>
    intro st hst
    omega
  | succ n ih =>
    intro st hst
    simp only [runFixedSize]
    cases hstep : fixedSizeStep cfg text pageNumber contentType st with
    | halt cs => simp
    | continueLoop st' =>
      simp only []
      apply ih
      have hprog := fixedSizeStep_continue cfg text pageNumber contentType st st'
        hO hOB hstep
      omega

/-- C5 (amended): the fixed-size chunking loop terminates for every text —
within `len(text) + 1` passes — provided, beyond the claimed `O < S`, that
`O + int(0.2·S) < S + 2`, so that each pass strictly advances the start
cursor even when the end is pulled back to a boundary at the very beginning
of the trailing window.  Without that proviso termination fails
(`chunker_nonterminating_config`: `S = 100`, `O = 99`). -/
theorem chunker_fixed_size_terminates (cfg : ChunkerCfg) (text : List Char)
    (pageNumber : Option Nat) (contentType : String)
    (hO : cfg.chunkOverlap < cfg.chunkSize)
    (hOB : cfg.chunkOverlap + cfg.searchBack < cfg.chunkSize + 2) :
    (chunkFixedSize cfg text pageNumber contentType (text.length + 1)).isSome := by
  unfold chunkFixedSize
  apply runFixedSize_terminates cfg text pageNumber contentType hO hOB
  show ((text.length : ℤ) - cfg.chunkOverlap - 0).toNat < text.length + 1
  omega

/-- Witness for C5 (amended) at the concrete configuration
`S = 100, O = 20, searchBack = 20` on the 120-character sample text. -/
theorem chunker_fixed_size_terminates_witness :
    (chunkFixedSize cfgC6 textC6 none "text" (textC6.length + 1)).isSome :=
  chunker_fixed_size_terminates cfgC6 textC6 none "text" (by decide) (by decide)

set_option maxRecDepth 100000 in
/-- C6 counterexample: in the window `[80, 100)` of the sample text the last
occurrence of `". "` sits at window index 0 and a later `"? "` at window
index 10.  The claim calls for the end just past the globally last break,
`80 + 10 + 2 = 92`; the code takes the last occurrence of the first break
string it tries (`". "`), giving `80 + 0 + 2 = 82`, as the emitted chunk's
`end_char` confirms. -/
theorem boundary_not_globally_last :
    (chunkFixedSize cfgC6 textC6 none "text" 10).map
      (fun cs => cs.map (fun c => c.endChar)) = some [(82 : ℤ), 162] ∧
    findBoundaryEnd 80 (pySlice textC6 80 100) sentenceSeps = some 82 ∧
    specLastBreakEnd 80 (pySlice textC6 80 100) = some 92 := by
  refine ⟨by decide, by decide, by decide⟩

/-- C6 (amended): when the trailing window contains preferred breaks, the
chunk end moves to just past the last occurrence of the *first* break string
— in the fixed order `". ", ".\n", "? ", "?\n", "! ", "!\n"` — that occurs at
all in the window, not past the greatest position among all six. -/
theorem boundary_first_matching_sep (ss : ℤ) (s : List Char) :
    ∀ (pre post : List (List Char)) (sep : List Char) (j : Nat),
      sentenceSeps = pre ++ sep :: post →
      (∀ p ∈ pre, rfindList s p = none) →
      rfindList s sep = some j →
      findBoundaryEnd ss s sentenceSeps = some (ss + j + sep.length) := by
  have main : ∀ (pre post : List (List Char)) (sep : List Char) (j : Nat),
      (∀ p ∈ pre, rfindList s p = none) → rfindList s sep = some j →
      findBoundaryEnd ss s (pre ++ sep :: post) = some (ss + j + sep.length) := by
    intro pre
    induction pre with
    | nil =>
      intro post sep j _ hf
      simp [findBoundaryEnd, hf]
    | cons p ps ih =>
      intro post sep j hnone hf
      have hp : rfindList s p = none := hnone p (List.mem_cons_self p ps)
      simp only [List.cons_append, findBoundaryEnd, hp]
      exact ih post sep j (fun q hq => hnone q (List.mem_cons_of_mem p hq)) hf
  intro pre post sep j hseps hnone hf
  rw [hseps]
  exact main pre post sep j hnone hf

set_option maxRecDepth 100000 in
/-- Witness for C6 (amended): in the sample window, `". "` is the first
break string with a hit; its last occurrence at window index 0 puts the end
at `80 + 0 + 2`. -/
theorem boundary_first_matching_sep_witness :
    findBoundaryEnd 80 (pySlice textC6 80 100) sentenceSeps =
      some (80 + (0 : Nat) + (['.', ' '].length : ℤ)) :=
  boundary_first_matching_sep 80 (pySlice textC6 80 100) []
    [['.', '\n'], ['?', ' '], ['?', '\n'], ['!', ' '], ['!', '\n']]
    ['.', ' '] 0 rfl (by simp) (by decide)

/-! ## Vision batch describer theorems -/

/-- `_parse_batch_response` always returns exactly `expected_count`
descriptions: surplus sections are cut, shortfalls are padded with `""`. -/
theorem parseBatchResponse_length (resp : String) (n : Nat) :
    (parseBatchResponse resp n).length = n := by
  unfold parseBatchResponse padTo
  simp only []
  set dp := (((reSplitImageMarkers resp.data).drop 1).map pyStrip).filter
    (fun p => !p.isEmpty) with hdp
  by_cases h1 : n ≤ dp.length
  · rw [if_pos h1]
    simp [List.length_take]
  · rw [if_neg h1]
    by_cases h2 : !dp.isEmpty
    · rw [if_pos h2]
      simp
      omega
    · rw [if_neg h2]
      simp

/-- Per-batch output size equals the batch size in both the parse path and
the fallback path. -/
theorem describeImagesBatchGo_length (batchChat : Nat → Except Unit String)
    (individual : Nat → Nat → Except Unit String) :
    ∀ (batches : List (List ImgItem)) (bi : Nat),
      (describeImagesBatchGo batchChat individual bi batches).length =
        (batches.map List.length).sum := by
  intro batches
  induction batches with
  | nil => intro bi; rfl
  | cons b rest ih =>
    intro bi
    simp only [describeImagesBatchGo]
    cases hb : batchChat bi with
    | ok resp =>
      simp only [List.length_append, List.map_cons, List.sum_cons, ih (bi + 1)]
      unfold processImageBatch
      simp [List.length_zip, parseBatchResponse_length]
    | error e =>
      simp [List.length_append, List.map_cons, List.sum_cons, ih (bi + 1)]

/-- The `range(0, len, batch_size)` grouping partitions the image list. -/
theorem toBatchesGo_length_sum (bs : Nat) (hbs : 1 ≤ bs) :
    ∀ (fuel : Nat) (l : List ImgItem), l.length ≤ fuel →
      ((toBatchesGo bs fuel l).map List.length).sum = l.length := by
  intro fuel
  induction fuel with
  | zero =>
    intro l hl
    have : l = [] := List.eq_nil_of_length_eq_zero (Nat.le_zero.mp hl)
    subst this
    rfl
  | succ n ih =>
    intro l hl
    cases l with
    | nil => rfl
    | cons a t =>
      simp only [toBatchesGo, List.map_cons, List.sum_cons]
      rw [ih ((a :: t).drop bs) (by simp at hl ⊢; omega)]
      simp [List.length_take]
      omega

/-- C7 (amended): a batch response that splits into fewer `[IMAGE k]`
sections than the batch size does *not* trigger the per-image fallback — the
parser keeps the parsed sections (or replicates the whole response when none
parsed) and pads with empty strings to the expected count.  The per-image
fallback runs exactly when the batch call raises, and there an individual
failure contributes an empty description without aborting the batch: the
output always carries one entry per image. -/
theorem batch_parse_pads_and_fallback_on_exception :
    (∀ (resp : String) (n : Nat), (parseBatchResponse resp n).length = n) ∧
    (∀ (batchChat : Nat → Except Unit String)
        (individual : Nat → Nat → Except Unit String) (bi : Nat)
        (batch : List ImgItem) (rest : List (List ImgItem)) (resp : String),
      batchChat bi = .ok resp →
      describeImagesBatchGo batchChat individual bi (batch :: rest) =
        processImageBatch resp batch ++
          describeImagesBatchGo batchChat individual (bi + 1) rest) ∧
    (∀ (batchChat : Nat → Except Unit String)
        (individual : Nat → Nat → Except Unit String) (bi : Nat)
        (batch : List ImgItem) (rest : List (List ImgItem)),
      batchChat bi = .error () →
      describeImagesBatchGo batchChat individual bi (batch :: rest) =
        batch.map (fun im =>
          match individual im.page im.idx with
          | .ok desc => (im.page, im.idx, desc)
          | .error _ => (im.page, im.idx, "")) ++
          describeImagesBatchGo batchChat individual (bi + 1) rest) ∧
    (∀ (batchChat : Nat → Except Unit String)
        (individual : Nat → Nat → Except Unit String) (images : List ImgItem)
        (bs : Nat), 1 ≤ bs →
      (describeImagesBatch batchChat individual images bs).length =
        images.length) := by
  refine ⟨parseBatchResponse_length, ?_, ?_, ?_⟩
  · intro batchChat individual bi batch rest resp hok
    simp only [describeImagesBatchGo, hok]
  · intro batchChat individual bi batch rest herr
    simp only [describeImagesBatchGo, herr]
  · intro batchChat individual images bs hbs
    unfold describeImagesBatch toBatches
    rw [describeImagesBatchGo_length]
    exact toBatchesGo_length_sum bs hbs images.length images le_rfl

/-- Witness for C7 (amended): the concrete short-parse batch reduces to the
parse path, bypassing the sentinel-valued individual oracle. -/
theorem batch_parse_pads_and_fallback_on_exception_witness :
    describeImagesBatchGo batchChatC7 individualC7 0 [imagesC7] =
      processImageBatch "[IMAGE 1]\nsection one" imagesC7 ++
        describeImagesBatchGo batchChatC7 individualC7 1 [] :=
  batch_parse_pads_and_fallback_on_exception.2.1 batchChatC7 individualC7 0
    imagesC7 [] "[IMAGE 1]\nsection one" rfl

set_option maxRecDepth 40000 in
/-- C7 counterexample: the batch response parses into one section for two
images; the describer pads the second description to `""` and never calls
the individual path (which would have produced `"SENTINEL"`). -/
theorem short_batch_response_pads_without_fallback :
    describeImagesBatch batchChatC7 individualC7 imagesC7 4 =
      [(1, 1, "section one"), (1, 2, "")] ∧
    describeImagesBatch batchChatC7 individualC7 imagesC7 4 ≠
      [(1, 1, "SENTINEL"), (1, 2, "SENTINEL")] ∧
    ((((reSplitImageMarkers ("[IMAGE 1]\nsection one".data)).drop 1).map
        pyStrip).filter (fun p => !p.isEmpty)).length = 1 := by
  refine ⟨by decide, by decide, by decide⟩

/-- Witness for C8: instantiating the quantified part at the concrete example
database fabricates one source row for the first returned result. -/
theorem hybrid_search_weighted_rank_witness :
    ∃ res ∈ hybridSearch exampleDb none 5 (3/10) (7/10) (3/10),
      ∃ r ∈ exampleDb, eligibleRow none r = true ∧ (3/10 : ℚ) ≤ similarity r ∧
        res = mkHybridResult (7/10) (3/10) r ∧
        res.similarityScore = combinedScore (7/10) (3/10) r := by
  have hmem : mkHybridResult (7/10) (3/10) rowB ∈
      hybridSearch exampleDb none 5 (3/10) (7/10) (3/10) := by
    norm_num [hybridSearch, hybridRows, exampleDb, rowA, rowB, rowC, eligibleRow,
      similarity, combinedScore, mkHybridResult, byCombinedDesc,
      List.insertionSort, List.orderedInsert]
  exact ⟨mkHybridResult (7/10) (3/10) rowB, hmem,
    (hybrid_search_weighted_rank exampleDb none 5 (3/10) (7/10) (3/10)).1
      (mkHybridResult (7/10) (3/10) rowB) hmem⟩

end RagEnv
